import Mathlib

/-!
Verification of the climate-data use-case notebook
(`use_case_climate_data.ipynb`).

The notebook's computational core is embedded shallowly:

* summer-day counting over a Celsius series (`no_summer_days_model`),
* catalog-record selection by year interval (`selected_file`, `selected_path`),
* nearest-grid-cell resolution via a Chebyshev cost and a
  `np.where`-style scan (`minimizers`, `nearestCell`),
* annual time slicing plus Kelvin→Celsius conversion (`extractYear`),
* Python-style (possibly negative) indexing used by the map-rectangle
  cell (`pyGet`, `rect_lat1_model`, `rect_lat2_model`),
* the copy-then-mutate dataframe cell (`cell19`) over an explicit heap
  of dataframes.

Temperatures, coordinates and timestamps are modelled as rationals;
grids and series as lists.
-/

/-! ### Summer-day counting

Source: `no_summer_days_model = tasmax_year_place_xr[tasmax_year_place_xr > 25].size`.
The boolean mask keeps exactly the samples strictly greater than the
threshold; `.size` is the length of the kept samples.  `countSummerDays`
is the same computation with the threshold as a parameter, as in the
spec's contract (the source instantiates the threshold at 25). -/

def countSummerDays (series : List ℚ) (T : ℚ) : ℕ :=
  (series.filter (fun v => decide (T < v))).length

def no_summer_days_model (series : List ℚ) : ℕ :=
  (series.filter (fun v => decide (25 < v))).length

/-! ### Catalog selection

Source cell 2.3:
`selected_file = query_result_df[(Y >= start_year) & (Y <= end_year)]`,
`selected_path = selected_file["zarr_path"].values[0]`.
A catalog record keeps the fields the selection reads.  `.values[0]` on
an empty selection raises `IndexError`; this is `Option.none` here. -/

structure CatRecord where
  start_year : ℤ
  end_year : ℤ
  zarr_path : String
deriving DecidableEq

def selected_file (df : List CatRecord) (Y : ℤ) : List CatRecord :=
  df.filter (fun r => decide (r.start_year ≤ Y) && decide (Y ≤ r.end_year))

def selected_path (df : List CatRecord) (Y : ℤ) : Option String :=
  ((selected_file df Y).map (fun r => r.zarr_path)).head?

/-! ### Nearest grid cell

Source cell 4:
`abslat = np.abs(lat - location.latitude)`,
`abslon = np.abs(lon - location.longitude)`,
`c = np.maximum(abslon, abslat)`,
`([xloc], [yloc]) = np.where(c == np.min(c))`.

`absdiff` is the elementwise absolute difference; `chebCost` is the
entry of the broadcast cost surface `c` at an index pair; `cells n k`
enumerates the index cross product in row-major scan order, as
`np.where` does; `minimizers` is the list of index pairs attaining
`np.min(c)`; `nearestCell` models the destructuring assignment
`([xloc], [yloc]) = ...`, which succeeds exactly when each returned
index array has length one, i.e. when the minimum is attained at a
single cell, and raises otherwise (modelled as `none`). -/

def absdiff (l : List ℚ) (t : ℚ) : List ℚ := l.map (fun x => |x - t|)

def chebCost (L M : List ℚ) (la lo : ℚ) (i j : ℕ) : ℚ :=
  max ((absdiff L la).getD i 0) ((absdiff M lo).getD j 0)

def cells (n k : ℕ) : List (ℕ × ℕ) :=
  (List.range n).flatMap (fun i => (List.range k).map (fun j => (i, j)))

def costValues (L M : List ℚ) (la lo : ℚ) : List ℚ :=
  (cells L.length M.length).map (fun p => chebCost L M la lo p.1 p.2)

def cmin (L M : List ℚ) (la lo : ℚ) : Option ℚ := (costValues L M la lo).min?

def minimizers (L M : List ℚ) (la lo : ℚ) : List (ℕ × ℕ) :=
  (cells L.length M.length).filter
    (fun p => decide (some (chebCost L M la lo p.1 p.2) = cmin L M la lo))

def nearestCell (L M : List ℚ) (la lo : ℚ) : Option (ℕ × ℕ) :=
  match minimizers L M la lo with
  | [p] => some p
  | _ => none

/-! ### Annual series extraction and unit conversion

Source cell 3 and cell 5:
`time_start = str(year) + "-01-01T12:00:00..."`,
`time_end = str(year) + "-12-31T12:00:00..."`,
`tasmax_year_xr = tasmax_xr.loc[time_start:time_end, :, :]` (label
slicing is inclusive at both ends), and
`tasmax_year_place_xr = tasmax_year_xr[:, yloc, xloc] - 273.15`.
The loaded array is a list of (timestamp, grid) frames; a grid is a
list of latitude rows of longitude values.  Out-of-bounds spatial
indexing raises in Python, so extraction is `Option`-valued and fails
if any frame lacks the cell. -/

def optMap {α β : Type} (f : α → Option β) : List α → Option (List β)
  | [] => some []
  | a :: t =>
    match f a, optMap f t with
    | some b, some bt => some (b :: bt)
    | _, _ => none

def sliceTime (arr : List (ℚ × List (List ℚ))) (ts te : ℚ) :
    List (ℚ × List (List ℚ)) :=
  arr.filter (fun p => decide (ts ≤ p.1) && decide (p.1 ≤ te))

def cellAt (g : List (List ℚ)) (y x : ℕ) : Option ℚ :=
  (g[y]?).bind (fun row => row[x]?)

def extractYear (arr : List (ℚ × List (List ℚ))) (ts te : ℚ) (y x : ℕ) :
    Option (List (ℚ × ℚ)) :=
  optMap (fun p => (cellAt p.2 y x).map (fun v => (p.1, v - 273.15)))
    (sliceTime arr ts te)

/-! ### Map-rectangle corner computation

Source cell 4 (map drawing):
`rect_lat1_model = (tasmax_year_xr["lat"][yloc - 1] + tasmax_year_xr["lat"][yloc]) / 2`,
`rect_lat2_model = (tasmax_year_xr["lat"][yloc + 1] + tasmax_year_xr["lat"][yloc]) / 2`
(and the same for `lon`/`xloc`).  `pyGet` is Python sequence indexing:
a non-negative index must be < len (else IndexError = none), a negative
index i addresses len + i (wrap-around) and fails only when len + i is
still negative. -/

def pyGet (l : List ℚ) (i : ℤ) : Option ℚ :=
  if 0 ≤ i then l[i.toNat]?
  else if 0 ≤ i + l.length then l[(i + l.length).toNat]?
  else none

def rect_lat1_model (lats : List ℚ) (yloc : ℕ) : Option ℚ :=
  match pyGet lats ((yloc : ℤ) - 1), pyGet lats (yloc : ℤ) with
  | some a, some b => some ((a + b) / 2)
  | _, _ => none

def rect_lat2_model (lats : List ℚ) (yloc : ℕ) : Option ℚ :=
  match pyGet lats ((yloc : ℤ) + 1), pyGet lats (yloc : ℤ) with
  | some a, some b => some ((a + b) / 2)
  | _, _ => none

/-! ### The copy-then-mutate dataframe cell

Source cell 2.3:
`query_result_df = cat.df.copy()`,
`query_result_df["start_year"] = query_result_df["time_range"].str[0:4].astype(int)`,
`query_result_df["end_year"] = query_result_df["time_range"].str[9:13].astype(int)`,
`query_result_df.drop(columns=["time_range"], inplace=True)`.

A dataframe is a list of rows; a row is an association list of column
name to value (string or integer).  References are modelled by an
explicit heap (a list of dataframes addressed by position): `.copy()`
allocates a fresh address, the column assignments and the
`inplace=True` drop mutate the dataframe at the copy's address only.
`astype(int)` raises on a non-numeric string; parsing failure makes the
whole cell fail (`none`). -/

inductive Val where
  | vstr : String → Val
  | vint : ℤ → Val
deriving DecidableEq

abbrev Df : Type := List (List (String × Val))

def digit? (ch : Char) : Option ℕ :=
  if '0' ≤ ch ∧ ch ≤ '9' then some (ch.toNat - '0'.toNat) else none

def parseNatAux : List Char → ℕ → Option ℕ
  | [], acc => some acc
  | ch :: t, acc =>
    match digit? ch with
    | some d => parseNatAux t (acc * 10 + d)
    | none => none

def astypeInt (s : String) : Option ℤ :=
  match s.data with
  | [] => none
  | l => (parseNatAux l 0).map Int.ofNat

def colVal (r : List (String × Val)) (c : String) : Option Val :=
  (r.find? (fun p => p.1 == c)).map (fun p => p.2)

def assignCol (df : Df) (c : String) (vals : List Val) : Df :=
  List.zipWith
    (fun r v =>
      if r.any (fun p => p.1 == c) then
        r.map (fun p => if p.1 == c then (p.1, v) else p)
      else r ++ [(c, v)])
    df vals

def dropCol (df : Df) (c : String) : Df :=
  df.map (fun r => r.filter (fun p => !(p.1 == c)))

def strSlice (s : String) (a b : ℕ) : String :=
  String.mk ((s.data.drop a).take (b - a))

def parseYearCol (df : Df) (c : String) (a b : ℕ) : Option (List Val) :=
  optMap
    (fun r =>
      match colVal r c with
      | some (Val.vstr s) => (astypeInt (strSlice s a b)).map Val.vint
      | _ => none)
    df

def cell19 (heap : List Df) (catAddr : ℕ) : Option (List Df × ℕ) :=
  match heap[catAddr]? with
  | none => none
  | some catDf =>
    let qAddr := heap.length
    let h1 := heap ++ [catDf]
    match parseYearCol catDf "time_range" 0 4 with
    | none => none
    | some sy =>
      let q1 := assignCol catDf "start_year" sy
      let h2 := h1.set qAddr q1
      match parseYearCol q1 "time_range" 9 13 with
      | none => none
      | some ey =>
        let q2 := assignCol q1 "end_year" ey
        let h3 := h2.set qAddr q2
        let q3 := dropCol q2 "time_range"
        some (h3.set qAddr q3, qAddr)

/-- C1: the summer-day count is the number of samples strictly greater
than the threshold (a sample exactly at the threshold is not counted),
it is 0 on the empty series, and on [20.0, 25.0, 25.1, 30.0] with
threshold 25.0 it is 2; the notebook's fixed-threshold count is the
contract count at T = 25. -/
theorem summer_day_count_spec :
    (∀ (series : List ℚ) (T : ℚ),
      countSummerDays series T = series.countP (fun v => decide (T < v))) ∧
    (∀ T : ℚ, countSummerDays [] T = 0) ∧
    countSummerDays [20, 25, 251/10, 30] 25 = 2 ∧
    (∀ series : List ℚ, no_summer_days_model series = countSummerDays series 25) ∧
    no_summer_days_model [20, 25, 251/10, 30] = 2 := by
  refine ⟨fun series T => ?_, fun T => rfl, by norm_num [countSummerDays],
    fun series => rfl, by norm_num [no_summer_days_model]⟩
  simp [countSummerDays, List.countP_eq_length_filter]

/-- C7 counterexample: a day whose value is exactly 25.0 °C is NOT
counted by the notebook's summer-day computation — the series [25.0]
yields count 0, refuting the claim that such a day is included. -/
theorem exact_threshold_not_counted : no_summer_days_model [25] = 0 := by
  decide

/-- C7 (amended): the count uses a strict comparison, so a sample whose
value is exactly the 25.0 °C threshold is excluded: prepending it to any
series leaves the count unchanged, while a strictly warmer sample
raises the count by one. -/
theorem summer_day_threshold_strict :
    (∀ series : List ℚ, no_summer_days_model (25 :: series) = no_summer_days_model series) ∧
    (∀ (series : List ℚ) (v : ℚ), 25 < v →
      no_summer_days_model (v :: series) = no_summer_days_model series + 1) := by
  constructor
  · intro series
    simp [no_summer_days_model]
  · intro series v hv
    simp [no_summer_days_model, hv]

/-- C7 amended-claim witness: instantiation at the series [20.0] with
the exactly-threshold sample 25.0 and the strictly warmer sample 30.0. -/
theorem summer_day_threshold_strict_witness :
    no_summer_days_model [25, 20] = no_summer_days_model [20] ∧
    ((25 : ℚ) < 30 ∧ no_summer_days_model [30, 20] = no_summer_days_model [20] + 1) :=
  ⟨summer_day_threshold_strict.1 [20],
   by decide, summer_day_threshold_strict.2 [20] 30 (by decide)⟩

/-- C8: the summer-day count is monotonically non-increasing in the
threshold: for T1 ≤ T2 the count at T2 is at most the count at T1. -/
theorem summer_day_count_antitone (series : List ℚ) (T1 T2 : ℚ) (h : T1 ≤ T2) :
    countSummerDays series T2 ≤ countSummerDays series T1 := by
  simp only [countSummerDays, ← List.countP_eq_length_filter]
  refine List.countP_mono_left ?_
  intro v _ hv
  simp only [decide_eq_true_eq] at hv ⊢
  exact lt_of_le_of_lt h hv

/-- C8 witness: on the series [20.0, 26.0, 30.0] with thresholds
24.0 ≤ 27.0 the counts are 1 ≤ 2. -/
theorem summer_day_count_antitone_witness :
    (24 : ℚ) ≤ 27 ∧ countSummerDays [20, 26, 30] 27 ≤ countSummerDays [20, 26, 30] 24 :=
  ⟨by decide, summer_day_count_antitone [20, 26, 30] 24 27 (by decide)⟩

/-- C2: every record kept by the selection has start_year ≤ Y ≤
end_year; when no record's interval contains Y the selection is empty
and taking its first element fails (none rather than a silent wrong
answer); when some record's interval contains Y the first-element
access succeeds. -/
theorem dataset_selection_spec (df : List CatRecord) (Y : ℤ) :
    (∀ r ∈ selected_file df Y, r.start_year ≤ Y ∧ Y ≤ r.end_year) ∧
    ((∀ r ∈ df, ¬(r.start_year ≤ Y ∧ Y ≤ r.end_year)) →
      selected_file df Y = [] ∧ selected_path df Y = none) ∧
    ((∃ r ∈ df, r.start_year ≤ Y ∧ Y ≤ r.end_year) →
      (selected_path df Y).isSome) := by
  refine ⟨?_, ?_, ?_⟩
  · intro r hr
    have := List.of_mem_filter hr
    simpa using this
  · intro hnone
    have hempty : selected_file df Y = [] := by
      refine List.filter_eq_nil_iff.mpr ?_
      intro r hr
      have := hnone r hr
      simpa using this
    refine ⟨hempty, ?_⟩
    simp [selected_path, hempty]
  · rintro ⟨r, hr, h1, h2⟩
    have hmem : r ∈ selected_file df Y := by
      refine List.mem_filter.mpr ⟨hr, ?_⟩
      simpa using ⟨h1, h2⟩
    have hne : (selected_file df Y).map (fun r => r.zarr_path) ≠ [] := by
      simp only [ne_eq, List.map_eq_nil_iff]
      exact List.ne_nil_of_mem hmem
    rw [selected_path]
    exact List.head?_isSome.mpr hne

lemma rat_min?_eq_some_iff {l : List ℚ} {m : ℚ} :
    l.min? = some m ↔ m ∈ l ∧ ∀ b ∈ l, m ≤ b := by
  haveI : Std.Antisymm ((· : ℚ) ≤ ·) := ⟨@fun a b h h' => le_antisymm h h'⟩
  exact List.min?_eq_some_iff (fun a => le_refl a) (fun a b => min_choice a b)
    (fun a b c => le_min_iff)

lemma mem_cells {n k : ℕ} {p : ℕ × ℕ} : p ∈ cells n k ↔ p.1 < n ∧ p.2 < k := by
  cases p with
  | mk i j =>
    simp only [cells, List.mem_flatMap, List.mem_range, List.mem_map, Prod.mk.injEq]
    constructor
    · rintro ⟨a, ha, b, hb, rfl, rfl⟩
      exact ⟨ha, hb⟩
    · rintro ⟨hi, hj⟩
      exact ⟨i, hi, j, hj, rfl, rfl⟩

lemma cells_nodup (n k : ℕ) : (cells n k).Nodup := by
  rw [cells, List.nodup_flatMap]
  constructor
  · intro i _
    exact (List.nodup_range k).map (fun a b h => by simpa using h)
  · have h := (List.nodup_range n)
    refine List.Pairwise.imp ?_ h
    intro a b hab x hxa hxb
    rcases List.mem_map.mp hxa with ⟨j, _, rfl⟩
    rcases List.mem_map.mp hxb with ⟨j', _, hx⟩
    exact hab (congrArg Prod.fst hx).symm

lemma mem_minimizers {L M : List ℚ} {la lo : ℚ} {p : ℕ × ℕ} :
    p ∈ minimizers L M la lo ↔
      p ∈ cells L.length M.length ∧
        cmin L M la lo = some (chebCost L M la lo p.1 p.2) := by
  simp only [minimizers, List.mem_filter, decide_eq_true_eq]
  exact and_congr_right (fun _ => eq_comm)

lemma nearestCell_eq_some_iff {L M : List ℚ} {la lo : ℚ} {p : ℕ × ℕ} :
    nearestCell L M la lo = some p ↔ minimizers L M la lo = [p] := by
  rw [nearestCell]
  rcases minimizers L M la lo with _ | ⟨q, _ | ⟨r, t⟩⟩ <;> simp

lemma chebCost_mem_costValues {L M : List ℚ} {la lo : ℚ} {i j : ℕ}
    (hi : i < L.length) (hj : j < M.length) :
    chebCost L M la lo i j ∈ costValues L M la lo :=
  List.mem_map.mpr ⟨(i, j), mem_cells.mpr ⟨hi, hj⟩, rfl⟩

lemma absdiff_getD_of_lt {l : List ℚ} {t : ℚ} {i : ℕ} (hi : i < l.length) :
    (absdiff l t).getD i 0 = |l.getD i 0 - t| := by
  rw [absdiff, List.getD_eq_getElem _ _ (by simpa using hi), List.getElem_map,
    List.getD_eq_getElem _ _ hi]

lemma absdiff_getD_nonneg (l : List ℚ) (t : ℚ) (i : ℕ) :
    0 ≤ (absdiff l t).getD i 0 := by
  by_cases hi : i < l.length
  · rw [absdiff_getD_of_lt hi]
    exact abs_nonneg _
  · rw [List.getD_eq_default]
    simpa [absdiff] using le_of_not_lt hi

lemma chebCost_nonneg (L M : List ℚ) (la lo : ℚ) (i j : ℕ) :
    0 ≤ chebCost L M la lo i j :=
  le_trans (absdiff_getD_nonneg L la i) (le_max_left _ _)

lemma filter_eq_singleton_of_nodup {α : Type} {l : List α} {pred : α → Bool} {p : α}
    (hnd : l.Nodup) (hp : p ∈ l) (hpp : pred p = true)
    (huniq : ∀ q ∈ l, pred q = true → q = p) : l.filter pred = [p] := by
  induction l with
  | nil => simp at hp
  | cons a t ih =>
    rcases List.nodup_cons.mp hnd with ⟨hat, hndt⟩
    by_cases ha : pred a = true
    · have hap : a = p := huniq a (List.mem_cons_self a t) ha
      subst hap
      have ht : t.filter pred = [] := by
        refine List.filter_eq_nil_iff.mpr (fun q hq hqp => ?_)
        exact hat ((huniq q (List.mem_cons_of_mem _ hq) hqp) ▸ hq)
      simp [List.filter_cons, ha, ht]
    · have hpt : p ∈ t := by
        rcases List.mem_cons.mp hp with h | h
        · exact absurd (h ▸ hpp) ha
        · exact h
      have := ih hndt hpt (fun q hq hqp => huniq q (List.mem_cons_of_mem _ hq) hqp)
      simp [List.filter_cons, ha, this]

lemma nearestCell_none_of_two {L M : List ℚ} {la lo : ℚ} {p q : ℕ × ℕ}
    (hp : p ∈ minimizers L M la lo) (hq : q ∈ minimizers L M la lo) (hne : p ≠ q) :
    nearestCell L M la lo = none := by
  rw [nearestCell]
  rcases e : minimizers L M la lo with _ | ⟨r, _ | ⟨s, t⟩⟩
  · rfl
  · rw [e] at hp hq
    simp only [List.mem_singleton] at hp hq
    exact absurd (hp.trans hq.symm) hne
  · rfl

lemma minimizers_exact {L M : List ℚ} {la lo : ℚ} {i j : ℕ}
    (hL : L.Nodup) (hM : M.Nodup) (hi : i < L.length) (hj : j < M.length)
    (hla : L.getD i 0 = la) (hlo : M.getD j 0 = lo) :
    minimizers L M la lo = [(i, j)] ∧ chebCost L M la lo i j = 0 := by
  have hcost0 : chebCost L M la lo i j = 0 := by
    rw [chebCost, absdiff_getD_of_lt hi, absdiff_getD_of_lt hj, hla, hlo]
    simp
  have hmin : cmin L M la lo = some 0 := by
    rw [cmin, rat_min?_eq_some_iff]
    constructor
    · rw [← hcost0]
      exact chebCost_mem_costValues hi hj
    · intro b hb
      rcases List.mem_map.mp hb with ⟨p, _, rfl⟩
      exact chebCost_nonneg L M la lo p.1 p.2
  refine ⟨?_, hcost0⟩
  rw [minimizers]
  refine filter_eq_singleton_of_nodup (cells_nodup _ _) (mem_cells.mpr ⟨hi, hj⟩) ?_ ?_
  · simp [hmin, hcost0]
  · intro q hq hqp
    simp only [decide_eq_true_eq, hmin, Option.some.injEq] at hqp
    rcases mem_cells.mp hq with ⟨hq1, hq2⟩
    have hub1 : (absdiff L la).getD q.1 0 ≤ chebCost L M la lo q.1 q.2 := le_max_left _ _
    have hub2 : (absdiff M lo).getD q.2 0 ≤ chebCost L M la lo q.1 q.2 := le_max_right _ _
    have h1 : (absdiff L la).getD q.1 0 = 0 :=
      le_antisymm (hub1.trans (le_of_eq hqp)) (absdiff_getD_nonneg L la q.1)
    have h2 : (absdiff M lo).getD q.2 0 = 0 :=
      le_antisymm (hub2.trans (le_of_eq hqp)) (absdiff_getD_nonneg M lo q.2)
    rw [absdiff_getD_of_lt hq1] at h1
    rw [absdiff_getD_of_lt hq2] at h2
    have e1 : L.getD q.1 0 = la := by
      have := abs_eq_zero.mp h1
      linarith [this]
    have e2 : M.getD q.2 0 = lo := by
      have := abs_eq_zero.mp h2
      linarith [this]
    have g1 : L[q.1] = L[i] := by
      rw [← List.getD_eq_getElem L 0 hq1, ← List.getD_eq_getElem L 0 hi, e1, hla]
    have g2 : M[q.2] = M[j] := by
      rw [← List.getD_eq_getElem M 0 hq2, ← List.getD_eq_getElem M 0 hj, e2, hlo]
    have q1i : q.1 = i := (hL.getElem_inj_iff).mp g1
    have q2j : q.2 = j := (hM.getElem_inj_iff).mp g2
    exact Prod.ext q1i q2j

lemma nearestCell_exact {L M : List ℚ} {la lo : ℚ} {i j : ℕ}
    (hL : L.Nodup) (hM : M.Nodup) (hi : i < L.length) (hj : j < M.length)
    (hla : L.getD i 0 = la) (hlo : M.getD j 0 = lo) :
    nearestCell L M la lo = some (i, j) :=
  nearestCell_eq_some_iff.mpr (minimizers_exact hL hM hi hj hla hlo).1

lemma tie_cmin : cmin [0] [0, 2] 0 1 = some 1 := by
  rw [cmin, rat_min?_eq_some_iff]
  have hc : cells (1 : ℕ) 2 = [(0, 0), (0, 1)] := by decide
  constructor
  · refine List.mem_map.mpr ⟨(0, 0), ?_, ?_⟩
    · exact mem_cells.mpr ⟨by norm_num, by norm_num⟩
    · simp [chebCost, absdiff]
  · intro b hb
    rcases List.mem_map.mp hb with ⟨p, hp0, rfl⟩
    have hp : p ∈ cells 1 2 := by simpa using hp0
    rw [hc] at hp
    rcases List.mem_cons.mp hp with rfl | hp
    · simp [chebCost, absdiff]
    rcases List.mem_cons.mp hp with rfl | hp
    · simp [chebCost, absdiff]
      norm_num
    · simp at hp

lemma tie_mem1 : ((0, 0) : ℕ × ℕ) ∈ minimizers [0] [0, 2] 0 1 := by
  refine mem_minimizers.mpr ⟨mem_cells.mpr ⟨by norm_num, by norm_num⟩, ?_⟩
  rw [tie_cmin]
  congr 1
  simp [chebCost, absdiff]

lemma tie_mem2 : ((0, 1) : ℕ × ℕ) ∈ minimizers [0] [0, 2] 0 1 := by
  refine mem_minimizers.mpr ⟨mem_cells.mpr ⟨by norm_num, by norm_num⟩, ?_⟩
  rw [tie_cmin]
  congr 1
  simp [chebCost, absdiff]
  norm_num

/-- C2 witness: a two-record catalog, a covered year (2021) whose
selection succeeds, and an uncovered year (2050) whose selection is
empty so the first-element access fails. -/
theorem dataset_selection_spec_witness :
    ((∀ r ∈ [(⟨2015, 2019, "p1"⟩ : CatRecord), ⟨2020, 2024, "p2"⟩], ¬(r.start_year ≤ (2050 : ℤ) ∧ (2050 : ℤ) ≤ r.end_year)) ∧
      selected_path [(⟨2015, 2019, "p1"⟩ : CatRecord), ⟨2020, 2024, "p2"⟩] 2050 = none) ∧
    ((∃ r ∈ [(⟨2015, 2019, "p1"⟩ : CatRecord), ⟨2020, 2024, "p2"⟩], r.start_year ≤ (2021 : ℤ) ∧ (2021 : ℤ) ≤ r.end_year) ∧
      (selected_path [(⟨2015, 2019, "p1"⟩ : CatRecord), ⟨2020, 2024, "p2"⟩] 2021).isSome) :=
  ⟨⟨by decide,
    ((dataset_selection_spec [⟨2015, 2019, "p1"⟩, ⟨2020, 2024, "p2"⟩] 2050).2.1 (by decide)).2⟩,
   ⟨⟨⟨2020, 2024, "p2"⟩, by decide⟩,
    (dataset_selection_spec [⟨2015, 2019, "p1"⟩, ⟨2020, 2024, "p2"⟩] 2021).2.2
      ⟨⟨2020, 2024, "p2"⟩, by decide⟩⟩⟩

/-- C3: whenever the nearest-cell resolution returns an index pair
(i, j), that pair minimizes the Chebyshev cost
c[i,j] = max(|L[i] − targetLat|, |M[j] − targetLon|) over the whole
cross product of the two index sets. -/
theorem nearest_cell_minimizes (L M : List ℚ) (la lo : ℚ) (i j i' j' : ℕ)
    (h : nearestCell L M la lo = some (i, j))
    (hi' : i' < L.length) (hj' : j' < M.length) :
    chebCost L M la lo i j ≤ chebCost L M la lo i' j' := by
  have hm := nearestCell_eq_some_iff.mp h
  have hmem : (i, j) ∈ minimizers L M la lo := by
    rw [hm]
    exact List.mem_singleton.mpr rfl
  obtain ⟨-, hcm⟩ := mem_minimizers.mp hmem
  rw [cmin] at hcm
  obtain ⟨-, hle⟩ := rat_min?_eq_some_iff.mp hcm
  exact hle _ (chebCost_mem_costValues hi' hj')

/-- C3 witness: on the 2×2 grid L = [52, 53], M = [9, 10] with target
(53, 10) the resolution returns (1, 1), whose cost is minimal; in
particular it is at most the cost of cell (0, 0). -/
theorem nearest_cell_minimizes_witness :
    nearestCell [52, 53] [9, 10] 53 10 = some (1, 1) ∧
    chebCost [52, 53] [9, 10] 53 10 1 1 ≤ chebCost [52, 53] [9, 10] 53 10 0 0 := by
  have h : nearestCell [52, 53] [9, 10] 53 10 = some (1, 1) :=
    nearestCell_exact (by norm_num) (by norm_num) (by norm_num) (by norm_num)
      (by simp) (by simp)
  exact ⟨h, nearest_cell_minimizes [52, 53] [9, 10] 53 10 1 1 0 0 h
    (by norm_num) (by norm_num)⟩

/-- C4 counterexample: on the grid L = [0], M = [0, 2] with target
(0, 1), the cells (0, 0) and (0, 1) tie for the minimum cost 1, and the
resolution FAILS (the one-element destructuring of the `np.where` index
arrays raises) instead of returning the first tying cell (0, 0) in
row-major order: the claim that resolution still succeeds on ties, and
is total, is false. -/
theorem nearest_cell_tie_counterexample : nearestCell [0] [0, 2] 0 1 = none :=
  nearestCell_none_of_two tie_mem1 tie_mem2 (by decide)

/-- C4 (amended): when several cells tie for the minimum Chebyshev
cost, the nearest-cell resolution fails (returns none, modelling the
unpacking error) rather than returning the first tying cell; it
succeeds — deterministically, being a function — exactly on the lists
of minimizers of length one, returning that unique minimizing cell. -/
theorem nearest_cell_tie_behavior (L M : List ℚ) (la lo : ℚ) :
    (∀ p q : ℕ × ℕ, p ∈ minimizers L M la lo → q ∈ minimizers L M la lo →
      p ≠ q → nearestCell L M la lo = none) ∧
    (∀ p : ℕ × ℕ, minimizers L M la lo = [p] → nearestCell L M la lo = some p) :=
  ⟨fun _ _ hp hq hne => nearestCell_none_of_two hp hq hne,
   fun _ hp => nearestCell_eq_some_iff.mpr hp⟩

/-- C4 amended-claim witness: the tie instance L = [0], M = [0, 2],
target (0, 1), where (0, 0) and (0, 1) both minimize and the resolution
returns none. -/
theorem nearest_cell_tie_behavior_witness :
    ((0, 0) : ℕ × ℕ) ∈ minimizers [0] [0, 2] 0 1 ∧
    ((0, 1) : ℕ × ℕ) ∈ minimizers [0] [0, 2] 0 1 ∧
    nearestCell [0] [0, 2] 0 1 = none :=
  ⟨tie_mem1, tie_mem2,
   (nearest_cell_tie_behavior [0] [0, 2] 0 1).1 (0, 0) (0, 1) tie_mem1 tie_mem2 (by decide)⟩

/-- C5 counterexample: the grid L = [0, 0], M = [0] is non-empty and the
target (0, 0) equals the grid coordinate pair (L[0], M[0]), yet the
resolution does not return that exact point: the duplicated latitude
makes cells (0, 0) and (1, 0) tie at cost 0 and the resolution fails,
so the claim as stated (over every non-empty grid) is false. -/
theorem nearest_cell_exact_counterexample : nearestCell [0, 0] [0] 0 0 = none := by
  have h1 : ((0, 0) : ℕ × ℕ) ∈ minimizers [0, 0] [0] 0 0 := by
    refine mem_minimizers.mpr ⟨mem_cells.mpr ⟨by norm_num, by norm_num⟩, ?_⟩
    rw [cmin, rat_min?_eq_some_iff]
    refine ⟨List.mem_map.mpr ⟨(0, 0), mem_cells.mpr ⟨by norm_num, by norm_num⟩, rfl⟩, ?_⟩
    intro b hb
    rcases List.mem_map.mp hb with ⟨p, -, rfl⟩
    have : chebCost [0, 0] [0] 0 0 0 0 = 0 := by simp [chebCost, absdiff]
    rw [this]
    exact chebCost_nonneg _ _ _ _ _ _
  have h2 : ((1, 0) : ℕ × ℕ) ∈ minimizers [0, 0] [0] 0 0 := by
    refine mem_minimizers.mpr ⟨mem_cells.mpr ⟨by norm_num, by norm_num⟩, ?_⟩
    rw [cmin, rat_min?_eq_some_iff]
    have he : chebCost [0, 0] [0] 0 0 1 0 = chebCost [0, 0] [0] 0 0 0 0 := by
      simp [chebCost, absdiff]
    refine ⟨?_, ?_⟩
    · rw [he]
      exact List.mem_map.mpr ⟨(0, 0), mem_cells.mpr ⟨by norm_num, by norm_num⟩, rfl⟩
    · intro b hb
      rcases List.mem_map.mp hb with ⟨p, -, rfl⟩
      have : chebCost [0, 0] [0] 0 0 1 0 = 0 := by simp [chebCost, absdiff]
      rw [this]
      exact chebCost_nonneg _ _ _ _ _ _
  exact nearestCell_none_of_two h1 h2 (by decide)

/-- C5 (amended): whenever the resolution returns (i, j) the indices
are within the grid bounds; and when the grid latitude values are
pairwise distinct and the longitude values pairwise distinct (as on a
real model grid) and the target point equals the grid coordinate pair
(L[i], M[j]), the resolution returns exactly (i, j), whose cost is 0. -/
theorem nearest_cell_bounds_exact (L M : List ℚ) (la lo : ℚ) :
    (∀ i j : ℕ, nearestCell L M la lo = some (i, j) →
      i < L.length ∧ j < M.length) ∧
    (L.Nodup → M.Nodup → ∀ i j : ℕ, ∀ hi : i < L.length, ∀ hj : j < M.length,
      L.getD i 0 = la → M.getD j 0 = lo →
      nearestCell L M la lo = some (i, j) ∧ chebCost L M la lo i j = 0) := by
  constructor
  · intro i j h
    have hm := nearestCell_eq_some_iff.mp h
    have hmem : (i, j) ∈ minimizers L M la lo := by
      rw [hm]
      exact List.mem_singleton.mpr rfl
    exact mem_cells.mp (mem_minimizers.mp hmem).1
  · intro hL hM i j hi hj hla hlo
    obtain ⟨hmz, hc0⟩ := minimizers_exact hL hM hi hj hla hlo
    exact ⟨nearestCell_eq_some_iff.mpr hmz, hc0⟩

/-- C5 amended-claim witness: on the 3×3 grid L = [52, 53, 54],
M = [9, 10, 11] with target exactly at (L[1], M[1]) = (53, 10), the
resolution returns (1, 1) with cost 0, and the returned indices are in
bounds. -/
theorem nearest_cell_bounds_exact_witness :
    (nearestCell [52, 53, 54] [9, 10, 11] 53 10 = some (1, 1) ∧
      chebCost [52, 53, 54] [9, 10, 11] 53 10 1 1 = 0) ∧
    ((1 : ℕ) < ([52, 53, 54] : List ℚ).length ∧ (1 : ℕ) < ([9, 10, 11] : List ℚ).length) := by
  have h := (nearest_cell_bounds_exact [52, 53, 54] [9, 10, 11] 53 10).2
    (by norm_num) (by norm_num) 1 1 (by norm_num) (by norm_num) (by simp) (by simp)
  refine ⟨h, (nearest_cell_bounds_exact [52, 53, 54] [9, 10, 11] 53 10).1 1 1 h.1⟩

lemma optMap_mem {α β : Type} {f : α → Option β} {l : List α} {out : List β}
    (h : optMap f l = some out) : ∀ b, b ∈ out ↔ ∃ a ∈ l, f a = some b := by
  induction l generalizing out with
  | nil =>
    rw [optMap] at h
    simp only [Option.some.injEq] at h
    subst h
    simp
  | cons a t ih =>
    rw [optMap] at h
    cases hfa : f a with
    | none => rw [hfa] at h; simp at h
    | some b0 =>
      rw [hfa] at h
      cases hot : optMap f t with
      | none => rw [hot] at h; simp at h
      | some bt =>
        rw [hot] at h
        simp only [Option.some.injEq] at h
        subst h
        intro b
        rw [List.mem_cons]
        constructor
        · rintro (rfl | hb)
          · exact ⟨a, List.mem_cons_self a t, hfa⟩
          · rcases (ih hot b).mp hb with ⟨a', ha', hfa'⟩
            exact ⟨a', List.mem_cons_of_mem _ ha', hfa'⟩
        · rintro ⟨a', ha', hfa'⟩
          rcases List.mem_cons.mp ha' with rfl | ha'
          · left
            rw [hfa] at hfa'
            exact (Option.some.injEq _ _ ▸ hfa').symm
          · right
            exact (ih hot b).mpr ⟨a', ha', hfa'⟩

lemma optMap_length {α β : Type} {f : α → Option β} {l : List α} {out : List β}
    (h : optMap f l = some out) : out.length = l.length := by
  induction l generalizing out with
  | nil =>
    rw [optMap] at h
    simp only [Option.some.injEq] at h
    subst h
    rfl
  | cons a t ih =>
    rw [optMap] at h
    cases hfa : f a with
    | none => rw [hfa] at h; simp at h
    | some b0 =>
      rw [hfa] at h
      cases hot : optMap f t with
      | none => rw [hot] at h; simp at h
      | some bt =>
        rw [hot] at h
        simp only [Option.some.injEq] at h
        subst h
        simp [ih hot]

/-- C6: when the annual extraction succeeds, its output holds exactly
the samples of the loaded array whose timestamp lies within
[time_start, time_end] inclusive, taken at the single spatial cell
(y, x), each with exactly 273.15 subtracted (Kelvin to Celsius), and
one output sample per in-range frame. -/
theorem annual_extraction_spec (arr : List (ℚ × List (List ℚ))) (ts te : ℚ)
    (y x : ℕ) (out : List (ℚ × ℚ)) (h : extractYear arr ts te y x = some out) :
    (∀ t v : ℚ, (t, v) ∈ out ↔
      ∃ g, (t, g) ∈ arr ∧ ts ≤ t ∧ t ≤ te ∧ cellAt g y x = some (v + 273.15)) ∧
    out.length = (sliceTime arr ts te).length := by
  rw [extractYear] at h
  refine ⟨fun t v => ?_, optMap_length h⟩
  rw [optMap_mem h (t, v)]
  constructor
  · rintro ⟨⟨t', g⟩, hp, hfa⟩
    rcases List.mem_filter.mp hp with ⟨hmem, hcond⟩
    simp only [Bool.and_eq_true, decide_eq_true_eq] at hcond
    rcases Option.map_eq_some'.mp hfa with ⟨w, hw, heq⟩
    have ht : t' = t := congrArg Prod.fst heq
    have hv : w - 273.15 = v := congrArg Prod.snd heq
    subst ht
    refine ⟨g, hmem, hcond.1, hcond.2, ?_⟩
    rw [hw]
    congr 1
    linarith
  · rintro ⟨g, hg, h1, h2, hc⟩
    refine ⟨(t, g), List.mem_filter.mpr ⟨hg, by simp [h1, h2]⟩, ?_⟩
    simp only [cellAt] at hc ⊢
    rw [hc]
    simp only [Option.map_some']
    congr 1
    rw [Prod.mk.injEq]
    exact ⟨rfl, by ring⟩

/-- C6 witness: a two-frame array with timestamps 1 and 5, window
[0, 2], cell (0, 0): extraction succeeds keeping exactly the one
in-range frame with 273.15 subtracted from its value 300 K, and the
output length matches the slice length. -/
theorem annual_extraction_spec_witness :
    extractYear [(1, [[300]]), (5, [[280]])] 0 2 0 0 = some [(1, 300 - 273.15)] ∧
    ([((1 : ℚ), (300 : ℚ) - 273.15)]).length =
      (sliceTime [(1, [[300]]), (5, [[280]])] 0 2).length := by
  have hs : sliceTime [(1, [[300]]), (5, [[280]])] 0 2 = [(1, [[300]])] := by
    simp [sliceTime]
    norm_num
  have he : extractYear [(1, [[300]]), (5, [[280]])] 0 2 0 0 = some [(1, 300 - 273.15)] := by
    rw [extractYear, hs, optMap, optMap]
    simp [cellAt]
  exact ⟨he, (annual_extraction_spec [(1, [[300]]), (5, [[280]])] 0 2 0 0 _ he).2⟩

/-- C9: the rectangle corners read the grid at yloc − 1 and yloc + 1,
so they are well-defined for a strictly interior cell; for the cell at
the maximal index the +1 access fails out of bounds (the computation
faults); and for the cell at index 0 the −1 access silently wraps
around to the element at the opposite edge of the grid, producing the
midpoint of the last and first coordinates instead of failing. -/
theorem rect_indexing_boundary (lats : List ℚ) (yloc : ℕ) :
    (1 ≤ yloc → yloc + 1 < lats.length →
      (rect_lat1_model lats yloc).isSome ∧ (rect_lat2_model lats yloc).isSome) ∧
    (yloc = lats.length - 1 → 1 ≤ lats.length →
      rect_lat2_model lats yloc = none) ∧
    (∀ a b : ℚ, lats.head? = some a → lats.getLast? = some b →
      rect_lat1_model lats 0 = some ((b + a) / 2)) := by
  refine ⟨?_, ?_, ?_⟩
  · intro h1 h2
    have hm1 : pyGet lats ((yloc : ℤ) - 1) = lats[yloc - 1]? := by
      rw [pyGet, if_pos (by omega : (0 : ℤ) ≤ (yloc : ℤ) - 1)]
      have ht : ((yloc : ℤ) - 1).toNat = yloc - 1 := by omega
      rw [ht]
    have hm0 : pyGet lats (yloc : ℤ) = lats[yloc]? := by
      rw [pyGet, if_pos (by omega : (0 : ℤ) ≤ (yloc : ℤ))]
      have ht : ((yloc : ℤ)).toNat = yloc := by omega
      rw [ht]
    have hp1 : pyGet lats ((yloc : ℤ) + 1) = lats[yloc + 1]? := by
      rw [pyGet, if_pos (by omega : (0 : ℤ) ≤ (yloc : ℤ) + 1)]
      have ht : ((yloc : ℤ) + 1).toNat = yloc + 1 := by omega
      rw [ht]
    constructor
    · rw [rect_lat1_model, hm1, hm0,
        List.getElem?_eq_getElem (show yloc - 1 < lats.length by omega),
        List.getElem?_eq_getElem (show yloc < lats.length by omega)]
      rfl
    · rw [rect_lat2_model, hp1, hm0,
        List.getElem?_eq_getElem (show yloc + 1 < lats.length by omega),
        List.getElem?_eq_getElem (show yloc < lats.length by omega)]
      rfl
  · intro hy hlen
    have hp1 : pyGet lats ((yloc : ℤ) + 1) = none := by
      rw [pyGet, if_pos (by omega : (0 : ℤ) ≤ (yloc : ℤ) + 1)]
      refine List.getElem?_eq_none ?_
      omega
    rw [rect_lat2_model, hp1]
  · intro a b ha hb
    have hne : lats ≠ [] := by
      intro hnil
      rw [hnil] at ha
      simp at ha
    have hlen : 1 ≤ lats.length := by
      rcases lats with _ | ⟨c, t⟩
      · exact absurd rfl hne
      · simp
    have h1 : pyGet lats (((0 : ℕ) : ℤ) - 1) = some b := by
      rw [pyGet, if_neg (by omega), if_pos (by omega : (0 : ℤ) ≤ ((0 : ℕ) : ℤ) - 1 + lats.length)]
      have ht : (((0 : ℕ) : ℤ) - 1 + lats.length).toNat = lats.length - 1 := by omega
      rw [ht, ← List.getLast?_eq_getElem?]
      exact hb
    have h0 : pyGet lats ((0 : ℕ) : ℤ) = some a := by
      rw [pyGet, if_pos (by omega)]
      have ht : (((0 : ℕ) : ℤ)).toNat = 0 := rfl
      rw [ht, ← List.head?_eq_getElem?]
      exact ha
    rw [rect_lat1_model, h1, h0]

/-- C9 witness: on the grid [1, 2, 3] the interior cell yloc = 1 has
both corners defined, the maximal cell yloc = 2 faults on the +1
access, and the edge cell yloc = 0 silently wraps: its −1 corner is
the midpoint (3 + 1)/2 = 2 of the last and first coordinates. -/
theorem rect_indexing_boundary_witness :
    ((rect_lat1_model [1, 2, 3] 1).isSome ∧ (rect_lat2_model [1, 2, 3] 1).isSome) ∧
    rect_lat2_model [1, 2, 3] 2 = none ∧
    rect_lat1_model [1, 2, 3] 0 = some ((3 + 1) / 2) :=
  ⟨(rect_indexing_boundary [1, 2, 3] 1).1 (by decide) (by decide),
   (rect_indexing_boundary [1, 2, 3] 2).2.1 (by decide) (by decide),
   (rect_indexing_boundary [1, 2, 3] 0).2.2 1 3 (by decide) (by decide)⟩

/-- C10: the cell operates on a copy allocated at a fresh address:
whenever it succeeds, every dataframe already on the heap — in
particular the original catalog dataframe `cat.df` — is unchanged, and
the returned address of `query_result_df` is the fresh one, distinct
from the catalog's address. -/
theorem catalog_df_unchanged (heap : List Df) (catAddr : ℕ)
    (heap2 : List Df) (q : ℕ) (h : cell19 heap catAddr = some (heap2, q)) :
    heap2[catAddr]? = heap[catAddr]? ∧
    (∀ a : ℕ, a < heap.length → heap2[a]? = heap[a]?) ∧
    q = heap.length ∧ catAddr ≠ q := by
  rw [cell19] at h
  cases hcat : heap[catAddr]? with
  | none => rw [hcat] at h; simp at h
  | some catDf =>
    rw [hcat] at h
    dsimp only at h
    have hlt : catAddr < heap.length := by
      by_contra hge
      rw [List.getElem?_eq_none (by omega)] at hcat
      exact Option.noConfusion hcat
    cases hsy : parseYearCol catDf "time_range" 0 4 with
    | none => rw [hsy] at h; simp at h
    | some sy =>
      rw [hsy] at h
      dsimp only at h
      cases hey : parseYearCol (assignCol catDf "start_year" sy) "time_range" 9 13 with
      | none => rw [hey] at h; simp at h
      | some ey =>
        rw [hey] at h
        dsimp only at h
        simp only [Option.some.injEq, Prod.mk.injEq] at h
        obtain ⟨hh, hq⟩ := h
        have haddr : ∀ a : ℕ, a < heap.length → heap2[a]? = heap[a]? := by
          intro a ha
          rw [← hh]
          rw [List.getElem?_set_ne (by omega), List.getElem?_set_ne (by omega),
            List.getElem?_set_ne (by omega)]
          exact List.getElem?_append_left ha
        exact ⟨(haddr catAddr hlt).trans hcat, haddr, hq.symm, by omega⟩

/-- C10 witness: a one-dataframe heap whose single catalog row carries
time_range "20150101-20191231": the cell succeeds, the copy at the
fresh address 1 has gained start_year 2015 and end_year 2019 and lost
time_range, and the original dataframe at address 0 is unchanged. -/
theorem catalog_df_unchanged_witness :
    cell19 [[[("time_range", Val.vstr "20150101-20191231"), ("zarr_path", Val.vstr "p1")]]] 0 =
      some ([[[("time_range", Val.vstr "20150101-20191231"), ("zarr_path", Val.vstr "p1")]],
             [[("zarr_path", Val.vstr "p1"), ("start_year", Val.vint 2015),
               ("end_year", Val.vint 2019)]]], 1) ∧
    ([[[("time_range", Val.vstr "20150101-20191231"), ("zarr_path", Val.vstr "p1")]],
      [[("zarr_path", Val.vstr "p1"), ("start_year", Val.vint 2015),
        ("end_year", Val.vint 2019)]]] : List Df)[0]? =
      ([[[("time_range", Val.vstr "20150101-20191231"), ("zarr_path", Val.vstr "p1")]]] : List Df)[0]? :=
  ⟨by decide,
   (catalog_df_unchanged
     [[[("time_range", Val.vstr "20150101-20191231"), ("zarr_path", Val.vstr "p1")]]] 0
     [[[("time_range", Val.vstr "20150101-20191231"), ("zarr_path", Val.vstr "p1")]],
      [[("zarr_path", Val.vstr "p1"), ("start_year", Val.vint 2015),
        ("end_year", Val.vint 2019)]]] 1 (by decide)).1⟩
